import Mathlib

/-!
Shallow embedding of src/youtube_dl/extractor/adobetv.py.

The file embeds the two extractor variants of the source file:
AdobeTVIE (Variant A, episode-style URLs) and AdobeTVVideoIE
(Variant B, direct-video URLs).  Raw JSON records are modelled as
structures whose required keys are plain fields and whose optional keys
(accessed through Python dict.get) are Option fields; loosely typed
scalar values are modelled by JVal.  The helper utilities imported from
youtube_dl.utils are not part of src/, so they are modelled from the
spec (each such definition says so in its doc comment).
-/

/-- A loosely typed JSON scalar value as it appears in fetched records. -/
inductive JVal where
  | num (n : Int)
  | str (s : String)
  deriving Repr, DecidableEq

/-- Python str() applied to a JSON scalar. -/
def pyStr : JVal → String
  | .num n => toString n
  | .str s => s

/-- Python percent interpolation of an optional scalar: str(None) is the text "None". -/
def pyStrOpt : Option JVal → String
  | none => "None"
  | some v => pyStr v

/-- Split of a character list at every occurrence of a separator character,
with Python str.split semantics for a one-character separator: the result
always has one more group than there are separators, so the empty input
gives one empty group. -/
def splitOnChar (sep : Char) : List Char → List (List Char)
  | [] => [[]]
  | c :: cs =>
    if c = sep then [] :: splitOnChar sep cs
    else
      match splitOnChar sep cs with
      | [] => [[c]]
      | g :: gs => (c :: g) :: gs

/-- Numeric value of a decimal digit character. -/
def digitVal (c : Char) : Nat := c.toNat - 48

/-- Value of a digit character list read in base ten. -/
def natFromDigits (l : List Char) : Nat :=
  l.foldl (fun n c => n * 10 + digitVal c) 0

/-- Parse of a nonempty all-digit character list, absent otherwise. -/
def charsToNat? (l : List Char) : Option Nat :=
  if !l.isEmpty && l.all Char.isDigit then some (natFromDigits l) else none

/-- Whether the second character list starts with the first. -/
def listBegins : List Char → List Char → Bool
  | [], _ => true
  | _ :: _, [] => false
  | p :: ps, c :: cs => p == c && listBegins ps cs

/-- Modelled from the spec: toOptionalInt — parse to integer if present and
parseable, else absent; never raises on malformed numeric text. -/
def int_or_none : Option JVal → Option Int
  | some (.num n) => some n
  | some (.str s) => (charsToNat? s.toList).map Int.ofNat
  | none => none

/-- Modelled from the spec: toOptionalInt(numericOrTextual) — the view-count
coercion; parse to integer if present and parseable, else absent. -/
def str_to_int : Option JVal → Option Int
  | some (.num n) => some n
  | some (.str s) => (charsToNat? s.toList).map Int.ofNat
  | none => none

/-- Modelled from the spec: toOptionalFloat(scale) — divide a present numeric
value by the (positive) scale, absent on missing or unparseable input.  The
exact rational value divided by scale is written with mkRat. -/
def float_or_none (v : Option JVal) (scale : Nat) : Option ℚ :=
  match v with
  | some (.num n) => some (mkRat n scale)
  | some (.str s) => (charsToNat? s.toList).map (fun n => mkRat n scale)
  | none => none

/-- Modelled from the spec: parseDuration(text) — accepts plain seconds,
M:SS or H:MM:SS textual forms, absent on anything else. -/
def parse_duration (s : Option String) : Option Nat :=
  match s with
  | none => none
  | some t =>
    match (splitOnChar ':' t.toList).mapM charsToNat? with
    | some [sec] => some sec
    | some [m, sec] => some (m * 60 + sec)
    | some [h, m, sec] => some (h * 3600 + m * 60 + sec)
    | _ => none

/-- Modelled from the spec: parseDate — normalize a date to YYYYMMDD text,
absent on unparseable input. -/
def unified_strdate (s : Option String) : Option String :=
  match s with
  | none => none
  | some t =>
    if t.toList.length = 8 && t.toList.all Char.isDigit then some t else none

/-- Modelled from the spec: the file-extension helper used to synthesize
Variant B format ids ("fileExtension"). -/
def determine_ext (url : String) : String :=
  match splitOnChar '.' ((splitOnChar '?' url.toList).headD url.toList) with
  | [] => "unknown_video"
  | [_] => "unknown_video"
  | parts =>
    match parts.getLastD [] with
    | [] => "unknown_video"
    | e => if e.all Char.isAlphanum then String.mk e else "unknown_video"

/-- Modelled from the spec: the long-language-name to short-code lookup
table (ISO639Utils.long2short), absent when the name is unknown. -/
def long2short (name : String) : Option String :=
  (([("English", "en"), ("French", "fr"), ("German", "de"),
     ("Japanese", "ja"), ("Spanish", "es")].find?
      (fun p => p.1 == name)).map (fun p => p.2))

/-- One entry of the normalized format list. -/
structure FormatDescriptor where
  url : String
  format_id : Option String
  width : Option Int
  height : Option Int
  tbr : Option Int
  deriving Repr, DecidableEq

/-- Modelled from the spec: quality key for the shared quality-sort utility
(height first, then bitrate, absent treated lowest). -/
def formatKey (f : FormatDescriptor) : Int × Int :=
  (f.height.getD (-1), f.tbr.getD (-1))

/-- Descending comparison on quality keys. -/
def keyLe (a b : Int × Int) : Bool :=
  decide (b.1 < a.1) || (decide (a.1 = b.1) && decide (b.2 ≤ a.2))

/-- Insertion step of the modelled quality sort. -/
def insertFmt (f : FormatDescriptor) : List FormatDescriptor → List FormatDescriptor
  | [] => [f]
  | g :: rest =>
    if keyLe (formatKey f) (formatKey g) then f :: g :: rest
    else g :: insertFmt f rest

/-- Modelled from the spec: the shared quality-sort utility sortFormats —
a deterministic sort by descending quality. -/
def sort_formats : List FormatDescriptor → List FormatDescriptor
  | [] => []
  | f :: rest => insertFmt f (sort_formats rest)

/-- One source entry of a Variant A raw record (a member of the videos list).
The key url is required by the code; the others are read with dict.get. -/
structure RawSourceA where
  url : String
  quality_level : Option String
  width : Option JVal
  height : Option JVal
  video_data_rate : Option JVal
  deriving Repr, DecidableEq

/-- A Variant A raw episode record as fetched from the API.  Keys id, title
and videos are required by the code (typed as plain fields); the rest are
read with dict.get and modelled as Option fields. -/
structure RawEpisodeRecord where
  id : JVal
  title : String
  description : Option String
  thumbnail : Option String
  start_date : Option String
  duration : Option String
  playcount : Option JVal
  videos : List RawSourceA
  deriving Repr, DecidableEq

/-- The normalized record returned by Variant A. -/
structure InfoA where
  id : String
  title : String
  description : Option String
  thumbnail : Option String
  upload_date : Option String
  duration : Option Nat
  view_count : Option Int
  formats : List FormatDescriptor
  deriving Repr, DecidableEq

/-- Trailing token of a Variant A source URL: the segment after the last
dash, truncated before its first dot — the expression
url.split with dash, last element, split with dot, first element. -/
def trailingToken (url : String) : String :=
  String.mk ((splitOnChar '.' ((splitOnChar '-' url.toList).getLastD [])).headD [])

/-- Variant A format id: quality_level if truthy, else the trailing URL
token if nonempty, else absent — the expression
source.get of quality_level or url-token or None. -/
def formatIdA (quality_level : Option String) (url : String) : Option String :=
  match quality_level with
  | some q => if q = "" then (if trailingToken url = "" then none else some (trailingToken url)) else some q
  | none => if trailingToken url = "" then none else some (trailingToken url)

/-- Variant A per-source format construction (the comprehension body of
AdobeTVIE._real_extract). -/
def fmtA (s : RawSourceA) : FormatDescriptor :=
  { url := s.url
    format_id := formatIdA s.quality_level s.url
    width := int_or_none s.width
    height := int_or_none s.height
    tbr := int_or_none s.video_data_rate }

/-- The Variant A field mapper: the pure part of AdobeTVIE._real_extract
applied to the fetched record. -/
def extractAdobeTV (d : RawEpisodeRecord) : InfoA :=
  { id := pyStr d.id
    title := d.title
    description := d.description
    thumbnail := d.thumbnail
    upload_date := unified_strdate d.start_date
    duration := parse_duration d.duration
    view_count := str_to_int d.playcount
    formats := sort_formats (d.videos.map fmtA) }

/-- The identifying components captured by the Variant A URL pattern. -/
structure MediaRefA where
  language : Option String
  show_urlname : String
  urlname : String
  deriving Repr, DecidableEq

/-- Scheme and host matching: strips http:// or https:// followed by the
given host text from the front of the URL, returning the remaining
characters. -/
def schemeTail (host url : String) : Option (List Char) :=
  if listBegins ("http://" ++ host).toList url.toList then
    some (url.toList.drop ("http://" ++ host).toList.length)
  else if listBegins ("https://" ++ host).toList url.toList then
    some (url.toList.drop ("https://" ++ host).toList.length)
  else none

/-- The optional leading language segment of the Variant A pattern:
one of fr/ de/ es/ jp/ at the front. -/
def langSeg (s : List Char) : Option (String × List Char) :=
  if listBegins "fr/".toList s then some ("fr", s.drop 3)
  else if listBegins "de/".toList s then some ("de", s.drop 3)
  else if listBegins "es/".toList s then some ("es", s.drop 3)
  else if listBegins "jp/".toList s then some ("jp", s.drop 3)
  else none

/-- Resolution of the optional language group: the captured language and the
remaining text (the whole text when the group does not participate). -/
def afterHost (t : List Char) : Option String × List Char :=
  match langSeg t with
  | some (l, r) => (some l, r)
  | none => (none, t)

/-- One nonempty URL path segment: a maximal nonempty run of characters
other than the slash, with the remaining text. -/
def segTail (s : List Char) : Option (List Char × List Char) :=
  match s.takeWhile (fun c => c != '/') with
  | [] => none
  | seg => some (seg, s.drop seg.length)

/-- The tail of the Variant A pattern after the optional language group:
watch/ then a nonempty show segment, a slash and a nonempty episode
segment, with any remaining text ignored (re.match is unanchored at the
end). -/
def matchWatch (lang : Option String) (t2 : List Char) : Option MediaRefA :=
  if listBegins "watch/".toList t2 then
    match segTail (t2.drop 6) with
    | none => none
    | some (sh, rest) =>
      if listBegins "/".toList rest then
        match segTail (rest.drop 1) with
        | none => none
        | some (vid, _) =>
          some { language := lang, show_urlname := String.mk sh,
                 urlname := String.mk vid }
      else none
  else none

/-- The Variant A URL matcher, embedding AdobeTVIE._VALID_URL under
re.match semantics (anchored at the start only). -/
def matchAdobeTV (url : String) : Option MediaRefA :=
  match schemeTail "tv.adobe.com/" url with
  | none => none
  | some t => matchWatch (afterHost t).1 (afterHost t).2

/-- The language actually used by AdobeTVIE._real_extract: the captured
group, defaulted to en when the group is falsy. -/
def languageUsed (m : MediaRefA) : String :=
  match m.language with
  | none => "en"
  | some l => if l = "" then "en" else l

/-- One source entry of a Variant B raw record (a member of the sources
list).  The key src is required by the code; the rest are dict.get. -/
structure RawSourceB where
  src : String
  width : Option JVal
  height : Option JVal
  bitrate : Option JVal
  duration : Option JVal
  deriving Repr, DecidableEq

/-- One entry of a Variant B translations list.  All three keys are read
dynamically: language_w3c with dict.get, language_medium and vttPath with
raising indexing, so the latter two are Option fields whose absence is a
KeyError at the access site. -/
structure Translation where
  language_w3c : Option String
  language_medium : Option String
  vttPath : Option String
  deriving Repr, DecidableEq

/-- A Variant B raw video record as fetched from the API.  Keys title,
sources and video are required by the code; video_poster models the
optional poster key of the required video sub-object; translations models
dict.get of translations with default empty list. -/
structure RawVideoRecord where
  title : String
  description : Option String
  video_poster : Option String
  sources : List RawSourceB
  translations : List Translation
  deriving Repr, DecidableEq

/-- One normalized subtitle track. -/
structure SubTrack where
  url : String
  ext : String
  deriving Repr, DecidableEq

/-- The normalized record returned by Variant B.  The subtitles mapping is
an insertion-ordered association list from resolved language key (None is a
legal Python dict key, hence Option String) to the accumulated tracks. -/
structure InfoB where
  id : String
  formats : List FormatDescriptor
  title : String
  description : Option String
  thumbnail : Option String
  duration : ℚ
  subtitles : List (Option String × List SubTrack)
  deriving Repr, DecidableEq

/-- Variant B per-source format construction (the comprehension body of
AdobeTVVideoIE._real_extract): the format id is the percent interpolation
of the file extension and the raw height value. -/
def fmtB (s : RawSourceB) : FormatDescriptor :=
  { format_id := some (determine_ext s.src ++ "-" ++ pyStrOpt s.height)
    url := s.src
    width := int_or_none s.width
    height := int_or_none s.height
    tbr := int_or_none s.bitrate }

/-- The per-source candidate durations after coercion and after Python
filter(None, ...), which drops both missing values and exact zeros. -/
def durListB (d : RawVideoRecord) : List ℚ :=
  ((d.sources.map (fun s => float_or_none s.duration 1000)).filterMap id).filter
    (fun q => decide (q ≠ 0))

/-- Python max over a list, absent on the empty list (where Python raises
ValueError). -/
def listMax : List ℚ → Option ℚ
  | [] => none
  | x :: xs => some (xs.foldl max x)

/-- The resolved language key of one translation: the W3C-style code when
truthy, else the long-name lookup, which is a KeyError when the
language_medium key is missing. -/
def mediumLang (t : Translation) : Except String (Option String) :=
  match t.language_medium with
  | some m => Except.ok (long2short m)
  | none => Except.error "KeyError: language_medium"

/-- Language-key selection for one translation (the expression
translation.get of language_w3c or long2short of translation's
language_medium). -/
def langIdOf (t : Translation) : Except String (Option String) :=
  match t.language_w3c with
  | some w => if w = "" then mediumLang t else Except.ok (some w)
  | none => mediumLang t

/-- Appending one track under a language key in an insertion-ordered
association list: an existing key keeps its position and accumulates, a
new key is appended at the end (Python dict insertion-order semantics). -/
def insertTrack (k : Option String) (tr : SubTrack) :
    List (Option String × List SubTrack) → List (Option String × List SubTrack)
  | [] => [(k, [tr])]
  | (k2, l) :: rest =>
    if k2 = k then (k2, l ++ [tr]) :: rest
    else (k2, l) :: insertTrack k tr rest

/-- One iteration of the subtitle loop: resolve the language key, read the
required vttPath key, append the track. -/
def addSub (acc : List (Option String × List SubTrack)) (t : Translation) :
    Except String (List (Option String × List SubTrack)) :=
  match langIdOf t with
  | Except.error e => Except.error e
  | Except.ok k =>
    match t.vttPath with
    | none => Except.error "KeyError: vttPath"
    | some u => Except.ok (insertTrack k { url := u, ext := "vtt" } acc)

/-- The whole subtitle loop of AdobeTVVideoIE._real_extract, iterating the
translation list in order. -/
def subsOf (acc : List (Option String × List SubTrack)) :
    List Translation → Except String (List (Option String × List SubTrack))
  | [] => Except.ok acc
  | t :: ts =>
    match addSub acc t with
    | Except.error e => Except.error e
    | Except.ok acc2 => subsOf acc2 ts

/-- The Variant B field mapper: the pure part of AdobeTVVideoIE._real_extract
applied to the matched id and the fetched record, in source order: formats,
then the max duration (raising on an empty candidate list), then subtitles. -/
def extractAdobeTVVideo (video_id : String) (d : RawVideoRecord) : Except String InfoB :=
  match listMax (durListB d) with
  | none => Except.error "max() arg is an empty sequence"
  | some duration =>
    match subsOf [] d.translations with
    | Except.error e => Except.error e
    | Except.ok subtitles =>
      Except.ok
        { id := video_id
          formats := sort_formats (d.sources.map fmtB)
          title := d.title
          description := d.description
          thumbnail := d.video_poster
          duration := duration
          subtitles := subtitles }

/-- The Variant B URL matcher, embedding AdobeTVVideoIE._VALID_URL: the
digits captured after the v path segment. -/
def matchAdobeTVVideo (url : String) : Option String :=
  match schemeTail "video.tv.adobe.com/v/" url with
  | none => none
  | some t =>
    match t.takeWhile Char.isDigit with
    | [] => none
    | ds => some (String.mk ds)

/-- The tracks stored under one language key of the subtitles mapping
(the empty list when the key is not present). -/
def lookupTracks (acc : List (Option String × List SubTrack)) (k : Option String) :
    List SubTrack :=
  match acc.find? (fun p => decide (p.1 = k)) with
  | some p => p.2
  | none => []

/-- The literal Variant A raw record of the spec's Quick Tip example. -/
def quickTipRecord : RawEpisodeRecord :=
  { id := JVal.num 10981
    title := "Quick Tip"
    description := none
    thumbnail := none
    start_date := some "20110914"
    duration := some "1:00"
    playcount := some (JVal.str "1234")
    videos := [{ url := "http://x/q-720.mp4", quality_level := none,
                 width := some (JVal.num 1280), height := some (JVal.num 720),
                 video_data_rate := some (JVal.num 1500) }] }

/-- A minimal Variant A raw record with every optional field absent. -/
def minimalA : RawEpisodeRecord :=
  { id := JVal.num 1, title := "t", description := none, thumbnail := none,
    start_date := none, duration := none, playcount := none, videos := [] }

/-- The spec's Variant B duration example: two sources with durations of
1000 and 2000 milliseconds. -/
def exampleBrec : RawVideoRecord :=
  { title := "T", description := none, video_poster := none,
    sources := [
      { src := "a.mp4", width := none, height := some (JVal.num 360),
        bitrate := none, duration := some (JVal.num 1000) },
      { src := "b.mp4", width := none, height := some (JVal.num 720),
        bitrate := none, duration := some (JVal.num 2000) }],
    translations := [] }

/-- The normalized record the Variant B mapper returns on exampleBrec. -/
def exampleBResult : InfoB :=
  { id := "2"
    formats := [
      { url := "b.mp4", format_id := some "mp4-720", width := none,
        height := some 720, tbr := none },
      { url := "a.mp4", format_id := some "mp4-360", width := none,
        height := some 360, tbr := none }]
    title := "T", description := none, thumbnail := none,
    duration := 2, subtitles := [] }

/-- A Variant B raw record whose single source reports a duration of
exactly zero milliseconds. -/
def zeroDurRec : RawVideoRecord :=
  { title := "T", description := none, video_poster := none,
    sources := [{ src := "a.mp4", width := none, height := none,
                  bitrate := none, duration := some (JVal.num 0) }],
    translations := [] }

/-- A Variant B raw record whose single source has no duration key. -/
def noDurRec : RawVideoRecord :=
  { title := "T", description := none, video_poster := none,
    sources := [{ src := "a.mp4", width := none, height := none,
                  bitrate := none, duration := none }],
    translations := [] }

/-- A Variant B raw record with an empty sources list. -/
def emptySrcRec : RawVideoRecord :=
  { title := "T", description := none, video_poster := none,
    sources := [], translations := [] }

/-- A Variant B raw record with one valid source and one translation that
has neither a language code nor a long language name. -/
def badLangRec : RawVideoRecord :=
  { title := "T", description := none, video_poster := none,
    sources := [{ src := "a.mp4", width := none, height := none,
                  bitrate := none, duration := some (JVal.num 1000) }],
    translations := [{ language_w3c := none, language_medium := none,
                       vttPath := some "x.vtt" }] }

/-! Helper lemmas. -/

lemma all_takeWhile {α : Type} (p : α → Bool) :
    ∀ l : List α, (l.takeWhile p).all p = true := by
  intro l
  induction l with
  | nil => rfl
  | cons x xs ih =>
    simp only [List.takeWhile]
    cases h : p x with
    | false => rfl
    | true => simp [List.all_cons, h, ih]

lemma le_foldl_max : ∀ (xs : List ℚ) (a : ℚ), a ≤ xs.foldl max a := by
  intro xs
  induction xs with
  | nil => intro a; exact le_refl a
  | cons x xs ih =>
    intro a
    exact le_trans (le_max_left a x) (ih (max a x))

lemma mem_le_foldl_max : ∀ (xs : List ℚ) (a x : ℚ), x ∈ xs → x ≤ xs.foldl max a := by
  intro xs
  induction xs with
  | nil => intro a x h; exact absurd h (List.not_mem_nil x)
  | cons y ys ih =>
    intro a x h
    rcases List.mem_cons.mp h with rfl | h2
    · exact le_trans (le_max_right a x) (le_foldl_max ys (max a x))
    · exact ih (max a y) x h2

lemma foldl_max_mem : ∀ (xs : List ℚ) (a : ℚ), xs.foldl max a = a ∨ xs.foldl max a ∈ xs := by
  intro xs
  induction xs with
  | nil => intro a; exact Or.inl rfl
  | cons x xs ih =>
    intro a
    rcases ih (max a x) with h | h
    · rcases max_choice a x with h2 | h2
      · left; rw [List.foldl_cons, h, h2]
      · right; rw [List.foldl_cons, h, h2]; exact List.mem_cons_self _ _
    · right
      rw [List.foldl_cons]
      exact List.mem_cons_of_mem _ h

lemma listMax_mem {l : List ℚ} {m : ℚ} (h : listMax l = some m) : m ∈ l := by
  cases l with
  | nil => simp [listMax] at h
  | cons x xs =>
    simp only [listMax, Option.some.injEq] at h
    subst h
    rcases foldl_max_mem xs x with h2 | h2
    · rw [h2]; exact List.mem_cons_self _ _
    · exact List.mem_cons_of_mem _ h2

lemma listMax_le {l : List ℚ} {m : ℚ} (h : listMax l = some m) :
    ∀ x ∈ l, x ≤ m := by
  cases l with
  | nil => simp [listMax] at h
  | cons y ys =>
    simp only [listMax, Option.some.injEq] at h
    subst h
    intro x hx
    rcases List.mem_cons.mp hx with rfl | h2
    · exact le_foldl_max ys x
    · exact mem_le_foldl_max ys y x h2

lemma mem_insertFmt (f g : FormatDescriptor) :
    ∀ l, f ∈ insertFmt g l → f = g ∨ f ∈ l := by
  intro l
  induction l with
  | nil =>
    intro h
    simp only [insertFmt, List.mem_singleton] at h
    exact Or.inl h
  | cons x xs ih =>
    intro h
    simp only [insertFmt] at h
    split at h
    · rcases List.mem_cons.mp h with rfl | h2
      · exact Or.inl rfl
      · exact Or.inr h2
    · rcases List.mem_cons.mp h with rfl | h2
      · exact Or.inr (List.mem_cons_self _ _)
      · rcases ih h2 with h3 | h3
        · exact Or.inl h3
        · exact Or.inr (List.mem_cons_of_mem _ h3)

lemma mem_sort_formats (f : FormatDescriptor) :
    ∀ l, f ∈ sort_formats l → f ∈ l := by
  intro l
  induction l with
  | nil => intro h; exact h
  | cons x xs ih =>
    intro h
    simp only [sort_formats] at h
    rcases mem_insertFmt f x _ h with rfl | h2
    · exact List.mem_cons_self _ _
    · exact List.mem_cons_of_mem _ (ih h2)

lemma langSeg_cases {s : List Char} {l : String} {r : List Char}
    (h : langSeg s = some (l, r)) :
    l = "fr" ∨ l = "de" ∨ l = "es" ∨ l = "jp" := by
  unfold langSeg at h
  split_ifs at h <;> simp_all

lemma matchWatch_language {lang : Option String} {t2 : List Char} {m : MediaRefA}
    (h : matchWatch lang t2 = some m) : m.language = lang := by
  unfold matchWatch at h
  split at h
  · split at h
    · cases h
    · split at h
      · split at h
        · cases h
        · cases h; rfl
      · cases h
  · cases h

lemma afterHost_fst (t : List Char) :
    (afterHost t).1 = none ∨ (afterHost t).1 = some "fr" ∨
      (afterHost t).1 = some "de" ∨ (afterHost t).1 = some "es" ∨
      (afterHost t).1 = some "jp" := by
  cases hl : langSeg t with
  | none => left; simp [afterHost, hl]
  | some lr =>
    obtain ⟨l, r⟩ := lr
    right
    rcases langSeg_cases hl with h2 | h2 | h2 | h2 <;> subst h2 <;>
      simp [afterHost, hl]

lemma matchAdobeTV_language {url : String} {m : MediaRefA}
    (h : matchAdobeTV url = some m) :
    m.language = none ∨ m.language = some "fr" ∨ m.language = some "de" ∨
      m.language = some "es" ∨ m.language = some "jp" := by
  unfold matchAdobeTV at h
  cases hs : schemeTail "tv.adobe.com/" url with
  | none => rw [hs] at h; cases h
  | some t =>
    rw [hs] at h
    rw [matchWatch_language h]
    exact afterHost_fst t

lemma lookupTracks_insertTrack (k : Option String) (tr : SubTrack) :
    ∀ acc, lookupTracks (insertTrack k tr acc) k = lookupTracks acc k ++ [tr] := by
  intro acc
  induction acc with
  | nil => simp [insertTrack, lookupTracks, List.find?]
  | cons p rest ih =>
    obtain ⟨k2, l⟩ := p
    by_cases hk : k2 = k
    · subst hk
      simp [insertTrack, lookupTracks, List.find?]
    · rw [insertTrack, if_neg hk]
      rw [lookupTracks, List.find?_cons_of_neg, lookupTracks, List.find?_cons_of_neg]
      · exact ih
      · simpa using hk
      · simpa using hk

lemma keys_insertTrack (k : Option String) (tr : SubTrack) :
    ∀ acc, (insertTrack k tr acc).map Prod.fst =
      (if k ∈ acc.map Prod.fst then acc.map Prod.fst else acc.map Prod.fst ++ [k]) := by
  intro acc
  induction acc with
  | nil => simp [insertTrack]
  | cons p rest ih =>
    obtain ⟨k2, l⟩ := p
    by_cases hk : k2 = k
    · subst hk
      simp [insertTrack]
    · rw [insertTrack, if_neg hk]
      simp only [List.map_cons]
      rw [ih]
      by_cases hm : k ∈ rest.map Prod.fst
      · rw [if_pos hm, if_pos]
        simp [hm]
      · rw [if_neg hm, if_neg]
        · simp
        · simp only [List.mem_cons]
          rintro (h2 | h2)
          · exact hk h2.symm
          · exact hm h2

lemma addSub_error_of_bad {t : Translation}
    (hw : t.language_w3c = none ∨ t.language_w3c = some "")
    (hm : t.language_medium = none) (acc : List (Option String × List SubTrack)) :
    addSub acc t = Except.error "KeyError: language_medium" := by
  rcases hw with hw | hw <;> simp [addSub, langIdOf, hw, mediumLang, hm]

lemma subsOf_error :
    ∀ (ts : List Translation) (acc : List (Option String × List SubTrack)),
      (∃ t ∈ ts, (t.language_w3c = none ∨ t.language_w3c = some "") ∧
        t.language_medium = none) →
      ∃ e, subsOf acc ts = Except.error e := by
  intro ts
  induction ts with
  | nil => intro acc h; simp at h
  | cons t0 rest ih =>
    intro acc h
    obtain ⟨t, ht, hb⟩ := h
    rcases List.mem_cons.mp ht with rfl | hmem
    · exact ⟨"KeyError: language_medium",
        by simp [subsOf, addSub_error_of_bad hb.1 hb.2 acc]⟩
    · cases ha : addSub acc t0 with
      | error e => exact ⟨e, by simp [subsOf, ha]⟩
      | ok acc2 =>
        obtain ⟨e, he⟩ := ih acc2 ⟨t, hmem, hb⟩
        exact ⟨e, by simp [subsOf, ha, he]⟩

lemma durList_aux :
    ∀ l : List RawSourceB,
      (∀ s ∈ l, s.duration = none ∨ s.duration = some (JVal.num 0)) →
      ((l.map (fun s => float_or_none s.duration 1000)).filterMap id).filter
        (fun q => decide (q ≠ 0)) = [] := by
  intro l
  induction l with
  | nil => intro _; rfl
  | cons s rest ih =>
    intro h
    have hs := h s (List.mem_cons_self _ _)
    have hr := ih (fun s2 hs2 => h s2 (List.mem_cons_of_mem _ hs2))
    rcases hs with hs | hs <;>
      simp [hs, float_or_none, List.filterMap_cons] at hr ⊢ <;>
      exact hr

lemma durListB_eq_nil {d : RawVideoRecord}
    (h : ∀ s ∈ d.sources, s.duration = none ∨ s.duration = some (JVal.num 0)) :
    durListB d = [] :=
  durList_aux d.sources h

lemma durListB_ne_zero {d : RawVideoRecord} {q : ℚ} (h : q ∈ durListB d) :
    q ≠ 0 := by
  have h2 := List.of_mem_filter h
  simpa using h2

lemma mem_durListB {d : RawVideoRecord} {q : ℚ} :
    q ∈ durListB d ↔
      (q ≠ 0 ∧ ∃ s ∈ d.sources, float_or_none s.duration 1000 = some q) := by
  unfold durListB
  simp only [List.mem_filter, List.mem_filterMap, List.mem_map, id_eq,
    decide_eq_true_eq]
  constructor
  · rintro ⟨⟨a, ⟨s, hs, ha⟩, ha2⟩, hq⟩
    subst ha2
    exact ⟨hq, s, hs, ha⟩
  · rintro ⟨hq, s, hs, ha⟩
    exact ⟨⟨some q, ⟨s, hs, ha⟩, rfl⟩, hq⟩

lemma extractB_ok {vid : String} {d : RawVideoRecord} {rec : InfoB}
    (h : extractAdobeTVVideo vid d = Except.ok rec) :
    rec.id = vid ∧ rec.formats = sort_formats (d.sources.map fmtB) ∧
      rec.title = d.title ∧ rec.description = d.description ∧
      rec.thumbnail = d.video_poster ∧
      listMax (durListB d) = some rec.duration ∧
      subsOf [] d.translations = Except.ok rec.subtitles := by
  unfold extractAdobeTVVideo at h
  cases hm : listMax (durListB d) with
  | none => rw [hm] at h; cases h
  | some du =>
    rw [hm] at h
    cases hsub : subsOf [] d.translations with
    | error e => rw [hsub] at h; cases h
    | ok subs =>
      rw [hsub] at h
      cases h
      exact ⟨rfl, rfl, rfl, rfl, rfl, rfl, rfl⟩

lemma matchAdobeTVVideo_digits {url vid : String}
    (h : matchAdobeTVVideo url = some vid) :
    vid ≠ "" ∧ vid.toList.all Char.isDigit = true := by
  unfold matchAdobeTVVideo at h
  cases hs : schemeTail "video.tv.adobe.com/v/" url with
  | none => rw [hs] at h; cases h
  | some t =>
    rw [hs] at h
    simp only at h
    cases hd : t.takeWhile Char.isDigit with
    | nil => rw [hd] at h; cases h
    | cons c cs =>
      rw [hd] at h
      cases h
      constructor
      · intro h2
        exact absurd (congrArg String.data h2) (List.cons_ne_nil c cs)
      · have h4 := all_takeWhile Char.isDigit t
        rw [hd] at h4
        exact h4

/-! Claim theorems. -/

/-- C3: on the literal Quick Tip raw record, the Variant A mapper returns
id "10981", duration 60 seconds, uploadDate "20110914", viewCount 1234 and
exactly one format whose format id is "720". -/
theorem c3_quick_tip_literal :
    (extractAdobeTV quickTipRecord).id = "10981" ∧
    (extractAdobeTV quickTipRecord).duration = some 60 ∧
    (extractAdobeTV quickTipRecord).upload_date = some "20110914" ∧
    (extractAdobeTV quickTipRecord).view_count = some 1234 ∧
    (extractAdobeTV quickTipRecord).formats.map FormatDescriptor.format_id =
      [some "720"] := by
  refine ⟨?_, ?_, ?_, ?_, ?_⟩ <;> rfl

/-- C5: a Variant A source without a truthy quality label gets as format id
the trailing token of its URL (the segment after the last dash, truncated
before its first dot), absent when that token is empty; a truthy quality
label is used unchanged.  Concretely the token of http://x/q-720.mp4 is
720 and a URL ending in a dash yields an absent format id. -/
theorem c5_format_id_fallback :
    (∀ s : RawSourceA, (s.quality_level = none ∨ s.quality_level = some "") →
      (fmtA s).format_id =
        (if trailingToken s.url = "" then none else some (trailingToken s.url))) ∧
    (∀ (s : RawSourceA) (q : String), s.quality_level = some q → q ≠ "" →
      (fmtA s).format_id = some q) ∧
    trailingToken "http://x/q-720.mp4" = "720" ∧
    formatIdA none "video-" = none := by
  refine ⟨?_, ?_, by rfl, by rfl⟩
  · rintro s (h | h) <;> simp [fmtA, formatIdA, h]
  · intro s q h hq
    simp [fmtA, formatIdA, h, hq]

/-- C5 witness: the fallback applied to a concrete source. -/
theorem c5_wit :
    (fmtA { url := "http://x/q-720.mp4", quality_level := none, width := none,
            height := none, video_data_rate := none }).format_id =
      (if trailingToken "http://x/q-720.mp4" = "" then none
       else some (trailingToken "http://x/q-720.mp4")) :=
  c5_format_id_fallback.1
    { url := "http://x/q-720.mp4", quality_level := none, width := none,
      height := none, video_data_rate := none } (Or.inl rfl)

/-- C6: every successful Variant A URL match uses the captured language
segment, which is always one of fr, de, es, jp, and defaults to en when no
language segment is present; no other language value is ever produced. -/
theorem c6_language_default :
    ∀ (url : String) (m : MediaRefA), matchAdobeTV url = some m →
      ((m.language = none → languageUsed m = "en") ∧
       (∀ l, m.language = some l → languageUsed m = l ∧
          (l = "fr" ∨ l = "de" ∨ l = "es" ∨ l = "jp")) ∧
       (languageUsed m = "en" ∨ languageUsed m = "fr" ∨ languageUsed m = "de" ∨
        languageUsed m = "es" ∨ languageUsed m = "jp")) := by
  intro url m h
  have hl := matchAdobeTV_language h
  refine ⟨?_, ?_, ?_⟩
  · intro h0
    simp [languageUsed, h0]
  · intro l h0
    rcases hl with h1 | h1 | h1 | h1 | h1
    · rw [h1] at h0; cases h0
    · rw [h1] at h0; injection h0 with h2; subst h2
      exact ⟨by simp [languageUsed, h1], by simp⟩
    · rw [h1] at h0; injection h0 with h2; subst h2
      exact ⟨by simp [languageUsed, h1], by simp⟩
    · rw [h1] at h0; injection h0 with h2; subst h2
      exact ⟨by simp [languageUsed, h1], by simp⟩
    · rw [h1] at h0; injection h0 with h2; subst h2
      exact ⟨by simp [languageUsed, h1], by simp⟩
  · rcases hl with h1 | h1 | h1 | h1 | h1 <;> simp [languageUsed, h1]

/-- C6 witness: a URL without a language segment resolves to en. -/
theorem c6_wit :
    languageUsed { language := none, show_urlname := "the-show",
                   urlname := "the-ep" } = "en" :=
  (c6_language_default "http://tv.adobe.com/watch/the-show/the-ep/"
    { language := none, show_urlname := "the-show", urlname := "the-ep" }
    rfl).1 rfl

/-- C7: both field mappers are pure deterministic functions of the raw
record: equal inputs give equal outputs, with no hidden state. -/
theorem c7_mapper_deterministic :
    (∀ d1 d2 : RawEpisodeRecord, d1 = d2 →
      extractAdobeTV d1 = extractAdobeTV d2) ∧
    (∀ (vid : String) (d1 d2 : RawVideoRecord), d1 = d2 →
      extractAdobeTVVideo vid d1 = extractAdobeTVVideo vid d2) :=
  ⟨fun _ _ h => h ▸ rfl, fun _ _ _ h => h ▸ rfl⟩

/-- C7 witness: two runs over the identical concrete record agree. -/
theorem c7_wit :
    extractAdobeTV quickTipRecord = extractAdobeTV quickTipRecord :=
  c7_mapper_deterministic.1 quickTipRecord quickTipRecord rfl

/-- C8: the normalized id is always a string: Variant A stringifies the
fetched numeric id, and Variant B's id is the digit path segment captured
as a string. -/
theorem c8_id_string :
    (∀ (d : RawEpisodeRecord) (n : Int), d.id = JVal.num n →
      (extractAdobeTV d).id = toString n) ∧
    (∀ url vid, matchAdobeTVVideo url = some vid →
      vid ≠ "" ∧ vid.toList.all Char.isDigit = true) ∧
    (∀ (vid : String) (d : RawVideoRecord) (rec : InfoB),
      extractAdobeTVVideo vid d = Except.ok rec → rec.id = vid) := by
  refine ⟨?_, ?_, ?_⟩
  · intro d n h
    simp [extractAdobeTV, pyStr, h]
  · intro url vid h
    exact matchAdobeTVVideo_digits h
  · intro vid d rec h
    exact (extractB_ok h).1

/-- C8 witness: the concrete numeric id 10981 is stringified, and the
captured Variant B id 2456 is a nonempty digit string. -/
theorem c8_wit :
    (extractAdobeTV quickTipRecord).id = toString (10981 : Int) ∧
    ("2456" : String) ≠ "" :=
  ⟨c8_id_string.1 quickTipRecord 10981 rfl,
   (c8_id_string.2.1 "https://video.tv.adobe.com/v/2456/" "2456" rfl).1⟩

/-- C4: subtitle grouping iterates translations in order; the language key
is the truthy W3C code, else the long-to-short lookup of the long name;
tracks accumulate under a recurring key in encounter order; and on the
spec's concrete two-entry list both tracks group under the key fr with
f.vtt first. -/
theorem c4_subtitle_grouping :
    (∀ (t : Translation) (w : String), t.language_w3c = some w → w ≠ "" →
      langIdOf t = Except.ok (some w)) ∧
    (∀ (t : Translation) (m : String),
      (t.language_w3c = none ∨ t.language_w3c = some "") →
      t.language_medium = some m → langIdOf t = Except.ok (long2short m)) ∧
    (∀ (acc : List (Option String × List SubTrack)) (k : Option String)
        (tr : SubTrack),
      lookupTracks (insertTrack k tr acc) k = lookupTracks acc k ++ [tr] ∧
      (insertTrack k tr acc).map Prod.fst =
        (if k ∈ acc.map Prod.fst then acc.map Prod.fst
         else acc.map Prod.fst ++ [k])) ∧
    subsOf [] [{ language_w3c := some "fr", language_medium := none,
                 vttPath := some "f.vtt" },
               { language_w3c := none, language_medium := some "French",
                 vttPath := some "g.vtt" }] =
      Except.ok [(some "fr", [{ url := "f.vtt", ext := "vtt" },
                              { url := "g.vtt", ext := "vtt" }])] := by
  refine ⟨?_, ?_, ?_, by rfl⟩
  · intro t w hw hne
    simp [langIdOf, hw, hne]
  · rintro t m (hw | hw) hm <;> simp [langIdOf, hw, mediumLang, hm]
  · intro acc k tr
    exact ⟨lookupTracks_insertTrack k tr acc, keys_insertTrack k tr acc⟩

/-- C4 witness: the key of the first concrete translation is fr. -/
theorem c4_wit :
    langIdOf { language_w3c := some "fr", language_medium := none,
               vttPath := some "f.vtt" } = Except.ok (some "fr") :=
  c4_subtitle_grouping.1
    { language_w3c := some "fr", language_medium := none,
      vttPath := some "f.vtt" } "fr" rfl (by decide)

/-- C9: when every Variant B source misses the duration key or reports
exactly zero (in particular when the sources list is empty), the extraction
raises the empty-maximum error; and zero durations are excluded from the
maximum, so a successful extraction never reports duration zero. -/
theorem c9_duration_raise :
    (∀ (vid : String) (d : RawVideoRecord),
      (∀ s ∈ d.sources, s.duration = none ∨ s.duration = some (JVal.num 0)) →
      extractAdobeTVVideo vid d = Except.error "max() arg is an empty sequence") ∧
    (∀ (vid : String) (d : RawVideoRecord) (rec : InfoB),
      extractAdobeTVVideo vid d = Except.ok rec → rec.duration ≠ 0) := by
  constructor
  · intro vid d h
    have h0 : durListB d = [] := durListB_eq_nil h
    simp [extractAdobeTVVideo, h0, listMax]
  · intro vid d rec h
    have hm := (extractB_ok h).2.2.2.2.2.1
    exact durListB_ne_zero (listMax_mem hm)

/-- C9 witness: the empty sources list raises, and the concrete successful
extraction on the two-source example reports a nonzero duration. -/
theorem c9_wit :
    extractAdobeTVVideo "1" emptySrcRec =
      Except.error "max() arg is an empty sequence" :=
  c9_duration_raise.1 "1" emptySrcRec (by intro s hs; simp [emptySrcRec] at hs)

/-- C10: a Variant B translation with neither a truthy W3C language code
nor a long language name makes the whole extraction fail with a key lookup
error rather than being skipped, and an empty-string W3C code falls through
to the long-name lookup. -/
theorem c10_translation_keyerror :
    (∀ (vid : String) (d : RawVideoRecord),
      (∃ t ∈ d.translations,
        (t.language_w3c = none ∨ t.language_w3c = some "") ∧
        t.language_medium = none) →
      ∃ e, extractAdobeTVVideo vid d = Except.error e) ∧
    (∀ (t : Translation) (m : String), t.language_w3c = some "" →
      t.language_medium = some m → langIdOf t = Except.ok (long2short m)) := by
  constructor
  · intro vid d h
    cases hm : listMax (durListB d) with
    | none =>
      exact ⟨"max() arg is an empty sequence", by simp [extractAdobeTVVideo, hm]⟩
    | some du =>
      obtain ⟨e, he⟩ := subsOf_error d.translations [] h
      exact ⟨e, by simp [extractAdobeTVVideo, hm, he]⟩
  · intro t m hw hm
    simp [langIdOf, hw, mediumLang, hm]

/-- C10 witness: the concrete record with a translation lacking both
language fields makes the extraction fail. -/
theorem c10_wit :
    ∃ e, extractAdobeTVVideo "1" badLangRec = Except.error e :=
  c10_translation_keyerror.1 "1" badLangRec
    ⟨{ language_w3c := none, language_medium := none, vttPath := some "x.vtt" },
     List.mem_cons_self _ _, Or.inl rfl, rfl⟩

lemma int_or_none_na : int_or_none (some (JVal.str "N/A")) = none := by decide

/-- C2 (amended): on every successful Variant B extraction the reported
duration is the maximum of the present nonzero per-source durations scaled
to seconds (an upper bound that is attained), and on the spec's concrete
two-source example it is 2 seconds; when every present duration is zero
the code raises instead (see the counterexample). -/
theorem c2_duration_max :
    (∀ (vid : String) (d : RawVideoRecord) (rec : InfoB),
      extractAdobeTVVideo vid d = Except.ok rec →
      ((∀ s ∈ d.sources, ∀ q, float_or_none s.duration 1000 = some q →
          q ≠ 0 → q ≤ rec.duration) ∧
       (∃ s ∈ d.sources, float_or_none s.duration 1000 = some rec.duration))) ∧
    (∃ rec : InfoB, extractAdobeTVVideo "2" exampleBrec = Except.ok rec ∧
      rec.duration = 2) := by
  constructor
  · intro vid d rec h
    have hm := (extractB_ok h).2.2.2.2.2.1
    constructor
    · intro s hs q hq hq0
      exact listMax_le hm q (mem_durListB.mpr ⟨hq0, s, hs, hq⟩)
    · obtain ⟨_, s, hs, ha⟩ := mem_durListB.mp (listMax_mem hm)
      exact ⟨s, hs, ha⟩
  · exact ⟨exampleBResult, by rfl, by rfl⟩

/-- C2 counterexample: a record whose only source reports duration zero —
present, hence inside the maximum the claim describes — does not yield a
record with duration 0.0 but raises the empty-maximum error, because
Python filter(None, ...) also drops zeros. -/
theorem c2_cex :
    extractAdobeTVVideo "1" zeroDurRec =
      Except.error "max() arg is an empty sequence" := by rfl

/-- C2 witness: the bound of the amended claim instantiated on the
concrete two-source example record. -/
theorem c2_wit : (1 : ℚ) ≤ exampleBResult.duration := by
  have hok : extractAdobeTVVideo "2" exampleBrec = Except.ok exampleBResult := by
    rfl
  refine (c2_duration_max.1 "2" exampleBrec exampleBResult hok).1
    { src := "a.mp4", width := none, height := some (JVal.num 360),
      bitrate := none, duration := some (JVal.num 1000) }
    (List.mem_cons_self _ _) 1 (by decide) (by norm_num)

/-- C1 (amended): every optional field of both variants degrades to absent
when missing or malformed — description, thumbnail, uploadDate, duration,
viewCount and the per-format width, height and bitrate for Variant A, and
description, thumbnail and per-format numeric fields for Variant B — with
the single exception of Variant B's duration, which raises when no source
carries a nonzero duration (see the counterexample). -/
theorem c1_optional_fields :
    (∀ d : RawEpisodeRecord,
      (d.description = none → (extractAdobeTV d).description = none) ∧
      (d.thumbnail = none → (extractAdobeTV d).thumbnail = none) ∧
      (d.start_date = none → (extractAdobeTV d).upload_date = none) ∧
      (d.duration = none → (extractAdobeTV d).duration = none) ∧
      (d.playcount = none → (extractAdobeTV d).view_count = none) ∧
      ((∀ s ∈ d.videos, s.height = none ∨ s.height = some (JVal.str "N/A")) →
        ∀ f ∈ (extractAdobeTV d).formats, f.height = none)) ∧
    (∀ s : RawSourceA,
      (s.width = none → (fmtA s).width = none) ∧
      (s.video_data_rate = none → (fmtA s).tbr = none) ∧
      (s.height = some (JVal.str "N/A") → (fmtA s).height = none)) ∧
    (∀ (vid : String) (d : RawVideoRecord) (rec : InfoB),
      extractAdobeTVVideo vid d = Except.ok rec →
      (d.description = none → rec.description = none) ∧
      (d.video_poster = none → rec.thumbnail = none) ∧
      ((∀ s ∈ d.sources, s.height = none ∨ s.height = some (JVal.str "N/A")) →
        ∀ f ∈ rec.formats, f.height = none)) := by
  refine ⟨?_, ?_, ?_⟩
  · intro d
    refine ⟨fun h => h, fun h => h, ?_, ?_, ?_, ?_⟩
    · intro h; simp [extractAdobeTV, unified_strdate, h]
    · intro h; simp [extractAdobeTV, parse_duration, h]
    · intro h; simp [extractAdobeTV, str_to_int, h]
    · intro hall f hf
      obtain ⟨s, hs, rfl⟩ := List.mem_map.mp (mem_sort_formats f _ hf)
      rcases hall s hs with h | h
      · simp [fmtA, int_or_none, h]
      · rw [fmtA]
        rw [h]
        exact int_or_none_na
  · intro s
    refine ⟨?_, ?_, ?_⟩
    · intro h; simp [fmtA, int_or_none, h]
    · intro h; simp [fmtA, int_or_none, h]
    · intro h
      rw [fmtA]
      rw [h]
      exact int_or_none_na
  · intro vid d rec h
    obtain ⟨_, hf, _, hd, ht, _, _⟩ := extractB_ok h
    refine ⟨fun h2 => by rw [hd, h2], fun h2 => by rw [ht, h2], ?_⟩
    intro hall f hmem
    rw [hf] at hmem
    obtain ⟨s, hs, rfl⟩ := List.mem_map.mp (mem_sort_formats f _ hmem)
    rcases hall s hs with h2 | h2
    · simp [fmtB, int_or_none, h2]
    · rw [fmtB]
      rw [h2]
      exact int_or_none_na

/-- C1 counterexample: a Variant B record whose single source has no
duration key makes the extraction raise instead of producing a record with
an absent duration, so the optional duration field does not degrade to
absent in Variant B. -/
theorem c1_cex :
    extractAdobeTVVideo "1" noDurRec =
      Except.error "max() arg is an empty sequence" := by rfl

/-- C1 witness: the Variant A conclusions instantiated on a concrete
record with every optional field absent. -/
theorem c1_wit :
    (extractAdobeTV minimalA).description = none ∧
    (extractAdobeTV minimalA).upload_date = none ∧
    (extractAdobeTV minimalA).duration = none ∧
    (extractAdobeTV minimalA).view_count = none :=
  ⟨(c1_optional_fields.1 minimalA).1 rfl,
   (c1_optional_fields.1 minimalA).2.2.1 rfl,
   (c1_optional_fields.1 minimalA).2.2.2.1 rfl,
   (c1_optional_fields.1 minimalA).2.2.2.2.1 rfl⟩
